import Mathlib

set_option maxHeartbeats 1000000

/-!
Verification of the htpx control-plane core: the frame codec
(reviveBuffers in src/daemon/control.ts and src/shared/control-client.ts),
the newline-delimited frame dispatcher and its JSON-RPC style message
handling (createControlServer and handleMessage in src/daemon/control.ts),
the control client's timeout behaviour (ControlClient.request), and a model
of the storage layer (RequestRepository), whose implementation file is not
part of the snapshot and is therefore modelled from the spec, guided by its
unit tests.
-/

namespace Htpx

/-- Values representable in the wire format, i.e. the possible outputs of
JSON.parse: null, booleans, numbers, strings, arrays and objects.  Numbers
are modelled as integers, which covers every value a serialised binary
payload can hold.  Objects are ordered field lists; property lookup returns
the first matching key, which agrees with JavaScript property lookup on
objects produced by JSON.parse, whose keys are unique. -/
inductive JVal where
  | jnull : JVal
  | jbool : Bool → JVal
  | jnum : Int → JVal
  | jstr : String → JVal
  | jarr : List JVal → JVal
  | jobj : List (String × JVal) → JVal
deriving Repr

/-- Values after reviveBuffers has run: wire values plus genuine Buffer
instances carrying raw bytes.  This is also the domain of values handed to
the JSON serialisation boundary on the way out. -/
inductive RVal where
  | rnull : RVal
  | rbool : Bool → RVal
  | rnum : Int → RVal
  | rstr : String → RVal
  | rbuf : List Nat → RVal
  | rarr : List RVal → RVal
  | robj : List (String × RVal) → RVal
deriving Repr

/-- Property lookup on a decoded JSON object: first field with the key. -/
def lookupField : List (String × JVal) → String → Option JVal
  | [], _ => none
  | (k, v) :: fs, key => if k = key then some v else lookupField fs key

/-- Property lookup on a pre-encoding object value. -/
def lookupFieldR : List (String × RVal) → String → Option RVal
  | [], _ => none
  | (k, v) :: fs, key => if k = key then some v else lookupFieldR fs key

/-- Byte coercion applied by Buffer.from to one element of a source array:
a number is wrapped to an unsigned 8-bit value, true coerces to 1, and
null, false and non-numeric values coerce to 0.  (Node coerces elements
through Number() and then ToUint8; strings whose text happens to spell a
number are beyond the byte payloads this development models and are mapped
to 0 here.) -/
def toUint8 : JVal → Nat
  | .jnum n => (n % 256).toNat
  | .jbool true => 1
  | _ => 0

/-- Model of Buffer.from applied to the data array of a serialised Buffer. -/
def bufferFrom (data : List JVal) : List Nat := data.map toUint8

/-- Discriminator test from reviveBuffers: the object has a field named
type whose value is exactly the string Buffer, and a field named data
whose value is an array.  This is the shape JSON.stringify produces for a
Buffer instance. -/
def isSerialisedBuffer (fs : List (String × JVal)) : Bool :=
  match lookupField fs "type", lookupField fs "data" with
  | some (.jstr t), some (.jarr _) => t == "Buffer"
  | _, _ => false

/-- Data array of a serialised Buffer object (empty if absent, which
cannot happen once isSerialisedBuffer holds). -/
def bufferData (fs : List (String × JVal)) : List JVal :=
  match lookupField fs "data" with
  | some (.jarr ds) => ds
  | _ => []

mutual

/-- Shallow embedding of reviveBuffers (src/shared/control-client.ts and
src/daemon/control.ts): recursively walk a decoded JSON value, replace
every object carrying the serialised-Buffer discriminator with the Buffer
built from its data array, and rebuild arrays and other objects with their
elements revived.  Scalars and null are returned unchanged. -/
def reviveBuffers : JVal → RVal
  | .jnull => .rnull
  | .jbool b => .rbool b
  | .jnum n => .rnum n
  | .jstr s => .rstr s
  | .jarr xs => .rarr (reviveList xs)
  | .jobj fs =>
      if isSerialisedBuffer fs then .rbuf (bufferFrom (bufferData fs))
      else .robj (reviveFields fs)

/-- Elementwise revival of an array, as done by obj.map(reviveBuffers). -/
def reviveList : List JVal → List RVal
  | [] => []
  | x :: xs => reviveBuffers x :: reviveList xs

/-- Fieldwise revival of an object, as done by the Object.entries loop. -/
def reviveFields : List (String × JVal) → List (String × RVal)
  | [] => []
  | (k, v) :: fs => (k, reviveBuffers v) :: reviveFields fs

end

mutual

/-- JSON serialisation boundary applied to a reply value before it is
written to the wire: JSON.stringify turns a Buffer into an object with a
type field holding the string Buffer and a data field holding the byte
array (via Buffer.prototype.toJSON); arrays and objects are serialised
elementwise and scalars are kept. -/
def serialiseValue : RVal → JVal
  | .rnull => .jnull
  | .rbool b => .jbool b
  | .rnum n => .jnum n
  | .rstr s => .jstr s
  | .rbuf bs => .jobj [("type", .jstr "Buffer"), ("data", .jarr (bs.map (fun (b : Nat) => .jnum (b : Int))))]
  | .rarr xs => .jarr (serialiseList xs)
  | .robj fs => .jobj (serialiseFields fs)

/-- Elementwise serialisation of an array. -/
def serialiseList : List RVal → List JVal
  | [] => []
  | x :: xs => serialiseValue x :: serialiseList xs

/-- Fieldwise serialisation of an object. -/
def serialiseFields : List (String × RVal) → List (String × JVal)
  | [] => []
  | (k, v) :: fs => (k, serialiseValue v) :: serialiseFields fs

end

/-- Discriminator shape on the pre-encoding side: an object whose type
field is the string Buffer and whose data field is an array.  Such a plain
object serialises to exactly the wire shape of a real Buffer, so the codec
cannot round-trip it. -/
def isBufferShapedR (fs : List (String × RVal)) : Bool :=
  match lookupFieldR fs "type", lookupFieldR fs "data" with
  | some (.rstr t), some (.rarr _) => t == "Buffer"
  | _, _ => false

mutual

/-- Wellformedness of a pre-encoding value: every Buffer holds genuine
bytes (below 256, as Node buffers do) and no plain object carries the
serialised-Buffer discriminator shape.  These are exactly the values the
codec is specified to round-trip. -/
def WfVal : RVal → Bool
  | .rnull => true
  | .rbool _ => true
  | .rnum _ => true
  | .rstr _ => true
  | .rbuf bs => bs.all (fun b => decide (b < 256))
  | .rarr xs => WfList xs
  | .robj fs => !(isBufferShapedR fs) && WfFields fs

/-- Wellformedness of every element of an array. -/
def WfList : List RVal → Bool
  | [] => true
  | x :: xs => WfVal x && WfList xs

/-- Wellformedness of every field value of an object. -/
def WfFields : List (String × RVal) → Bool
  | [] => true
  | (_, v) :: fs => WfVal v && WfFields fs

end

/-- Extraction of complete newline-delimited frames from a connection
buffer, mirroring the while loop of the data handler in
createControlServer: each iteration removes the prefix before the first
newline as one frame; the text after the last newline stays buffered. -/
def extractFrames : List Char → List (List Char) × List Char
  | [] => ([], [])
  | c :: rest =>
      if c = '\n' then
        ([] :: (extractFrames rest).1, (extractFrames rest).2)
      else
        match extractFrames rest with
        | ([], buf) => ([], c :: buf)
        | (f :: fs, buf) => ((c :: f) :: fs, buf)

/-- One data event on a server connection: the chunk is appended to the
connection buffer and every complete frame now present is extracted for
dispatch, in order. -/
def connStep (buf chunk : List Char) : List (List Char) × List Char :=
  extractFrames (buf ++ chunk)

/-- A whole sequence of data events on one connection, starting from the
empty buffer: all frames dispatched across the events, in order, together
with the final buffer contents. -/
def runConn (chunks : List (List Char)) : List (List Char) × List Char :=
  chunks.foldl
    (fun acc chunk =>
      ((acc.1 ++ (connStep acc.2 chunk).1, (connStep acc.2 chunk).2)))
    ([], [])

/-- Session row of the record store: opaque id, optional human label,
owning process id, creation timestamp in milliseconds. -/
structure Session where
  id : String
  label : Option String
  pid : Nat
  startedAt : Nat
deriving Repr, DecidableEq

/-- Captured transaction row as persisted by the record store.  Bodies are
raw byte sequences; response-side fields are absent until a response is
attached. -/
structure StoredRequest where
  id : String
  sessionId : String
  label : Option String
  timestamp : Nat
  method : String
  url : String
  host : String
  path : String
  requestHeaders : List (String × String)
  requestBody : Option (List Nat)
  responseStatus : Option Nat
  responseHeaders : Option (List (String × String))
  responseBody : Option (List Nat)
  durationMs : Option Nat
deriving Repr, DecidableEq

/-- Modelled from the spec: in-memory image of the record store owned by
RequestRepository (src/daemon/storage.ts is not part of the snapshot; only
its unit tests are).  Requests are kept newest first; nextId feeds
generated session ids; selfPid models process.pid, the default owning pid;
now models the creation-timestamp clock. -/
structure Storage where
  sessions : List Session
  requests : List StoredRequest
  nextId : Nat
  selfPid : Nat
  now : Nat
deriving Repr, DecidableEq

/-- Empty store, as after opening a fresh database. -/
def emptyStorage : Storage :=
  { sessions := [], requests := [], nextId := 0, selfPid := 1, now := 0 }

/-- Lookup of a session row by primary key. -/
def findSession (st : Storage) (id : String) : Option Session :=
  st.sessions.find? (fun s => s.id == id)

/-- Modelled from the spec: RequestRepository.ensureSession —
insert-if-absent, idempotent by caller-supplied id.  When the id already
exists the original row is returned unchanged and the store is untouched,
ignoring the label and pid passed in the call; otherwise a new session
with the supplied id, label and pid (defaulting to the daemon process id)
is inserted. -/
def ensureSession (st : Storage) (id : String) (label : Option String)
    (pid : Option Nat) : Session × Storage :=
  match findSession st id with
  | some s => (s, st)
  | none =>
      let s : Session := ⟨id, label, pid.getD st.selfPid, st.now⟩
      (s, { st with sessions := st.sessions ++ [s] })

/-- Modelled from the spec: RequestRepository.registerSession — always
inserts a new row with a store-generated id. -/
def registerSession (st : Storage) (label : Option String)
    (pid : Option Nat) : Session × Storage :=
  let s : Session := ⟨"session-" ++ toString st.nextId, label,
    pid.getD st.selfPid, st.now⟩
  (s, { st with sessions := st.sessions ++ [s], nextId := st.nextId + 1 })

/-- All sessions, in insertion order. -/
def listSessions (st : Storage) : List Session := st.sessions

/-- Filter accepted by the listing operations reachable over the control
socket: optional session id, optional label, optional limit and offset. -/
structure ListFilter where
  sessionId : Option String
  label : Option String
  limit : Option Nat
  offset : Option Nat
deriving Repr, DecidableEq

/-- Conjunction of the provided filter fields; an absent field applies no
constraint. -/
def matchesFilter (f : ListFilter) (r : StoredRequest) : Bool :=
  (match f.sessionId with
    | some sid => r.sessionId == sid
    | none => true)
  && (match f.label with
    | some l => r.label == some l
    | none => true)

/-- Page of rows selected by a filter: filtered rows, skipping offset,
then capped at limit when one is given. -/
def pageOf (f : ListFilter) (rs : List StoredRequest) : List StoredRequest :=
  let afterOffset := (rs.filter (matchesFilter f)).drop (f.offset.getD 0)
  match f.limit with
  | some l => afterOffset.take l
  | none => afterOffset

/-- Modelled from the spec: RequestRepository.listRequests — full
projection of the stored rows matching the filter, newest first. -/
def listRequests (st : Storage) (f : ListFilter) : List StoredRequest :=
  pageOf f st.requests

/-- Summary projection row: metadata plus body sizes only.  The type has
no header and no body fields at all. -/
structure RequestSummary where
  id : String
  sessionId : String
  label : Option String
  timestamp : Nat
  method : String
  url : String
  host : String
  path : String
  responseStatus : Option Nat
  durationMs : Option Nat
  requestBodySize : Nat
  responseBodySize : Nat
deriving Repr, DecidableEq

/-- Byte length of an optionally captured body: 0 when absent, never a
null marker. -/
def bodySize : Option (List Nat) → Nat
  | some b => b.length
  | none => 0

/-- Modelled from the spec: the summary projection of one stored
transaction — every metadata column is copied, the two body columns are
replaced by their byte lengths, and headers are not selected at all. -/
def toSummary (r : StoredRequest) : RequestSummary :=
  ⟨r.id, r.sessionId, r.label, r.timestamp, r.method, r.url, r.host, r.path,
    r.responseStatus, r.durationMs, bodySize r.requestBody,
    bodySize r.responseBody⟩

/-- Modelled from the spec: RequestRepository.listRequestsSummary — the
same rows listRequests would return, each projected to its summary. -/
def listRequestsSummary (st : Storage) (f : ListFilter) : List RequestSummary :=
  (listRequests st f).map toSummary

/-- Modelled from the spec: RequestRepository.countRequests — number of
rows matching the same predicate as listing (limit and offset ignored). -/
def countRequests (st : Storage) (sessionId label : Option String) : Nat :=
  (st.requests.filter
    (matchesFilter ⟨sessionId, label, none, none⟩)).length

/-- Lookup of a stored transaction by primary key. -/
def getRequest (st : Storage) (id : String) : Option StoredRequest :=
  st.requests.find? (fun r => r.id == id)

/-- Modelled from the spec: RequestRepository.clearRequests — deletes all
transactions, sessions retained. -/
def clearRequests (st : Storage) : Storage :=
  { st with requests := [] }

/-- Wire error object of a reply frame. -/
structure ErrObj where
  code : Int
  message : String
deriving Repr, DecidableEq

/-- Reply frame: correlation id plus either a result or an error. -/
structure ControlResponse where
  id : String
  result : Option RVal
  error : Option ErrObj
deriving Repr

/-- Request frame after validation: correlation id, operation name and
optional parameter bag. -/
structure ControlMessage where
  id : String
  method : String
  params : Option JVal
deriving Repr

/-- Runtime type guard isControlMessage from control.ts: the decoded value
is an object whose id and method properties are both strings. -/
def isControlMessage (v : JVal) : Bool :=
  match v with
  | .jobj fs =>
      (match lookupField fs "id" with
        | some (.jstr _) => true
        | _ => false)
      && (match lookupField fs "method" with
        | some (.jstr _) => true
        | _ => false)
  | _ => false

/-- Destructuring of a validated frame into id, method and params, as done
by the const binding in handleMessage. -/
def toControlMessage (v : JVal) : ControlMessage :=
  match v with
  | .jobj fs =>
      { id := match lookupField fs "id" with
          | some (.jstr s) => s
          | _ => ""
        method := match lookupField fs "method" with
          | some (.jstr s) => s
          | _ => ""
        params := lookupField fs "params" }
  | _ => { id := "", method := "", params := none }

/-- Property access on the parameter bag (undefined for non-objects). -/
def getParam (params : JVal) (key : String) : Option JVal :=
  match params with
  | .jobj fs => lookupField fs key
  | _ => none

/-- Validation helper optionalString from control.ts: the parameter when
it is a string, undefined otherwise. -/
def optionalString (params : JVal) (key : String) : Option String :=
  match getParam params key with
  | some (.jstr s) => some s
  | _ => none

/-- Validation helper optionalNumber from control.ts. -/
def optionalNumber (params : JVal) (key : String) : Option Int :=
  match getParam params key with
  | some (.jnum n) => some n
  | _ => none

/-- Validation helper requireString from control.ts: throws when the
parameter is missing or not a string. -/
def requireString (params : JVal) (key : String) : Except String String :=
  match getParam params key with
  | some (.jstr s) => .ok s
  | _ => .error ("Missing required string parameter: " ++ key)

/-- Parameter bag handed to a handler: params ?? an empty object. -/
def paramsOrEmpty : Option JVal → JVal
  | some p => p
  | none => .jobj []

/-- Filter assembled by the listing handlers from the parameter bag. -/
def filterOfParams (p : JVal) : ListFilter :=
  { sessionId := optionalString p "sessionId"
    label := optionalString p "label"
    limit := (optionalNumber p "limit").map Int.toNat
    offset := (optionalNumber p "offset").map Int.toNat }

/-- Optional field of an encoded reply object: omitted when absent, as
JSON.stringify omits undefined properties. -/
def optF (k : String) (v : Option RVal) : List (String × RVal) :=
  match v with
  | some x => [(k, x)]
  | none => []

/-- Header map as it appears in an encoded reply. -/
def encodeHeaders (hs : List (String × String)) : RVal :=
  .robj (hs.map (fun p => (p.1, .rstr p.2)))

/-- Session row as it appears in an encoded reply. -/
def encodeSession (s : Session) : RVal :=
  .robj ([("id", .rstr s.id)]
    ++ optF "label" (s.label.map .rstr)
    ++ [("pid", .rnum (s.pid : Int)), ("startedAt", .rnum (s.startedAt : Int))])

/-- Full transaction row as it appears in an encoded reply. -/
def encodeRequest (r : StoredRequest) : RVal :=
  .robj ([("id", .rstr r.id), ("sessionId", .rstr r.sessionId)]
    ++ optF "label" (r.label.map .rstr)
    ++ [("timestamp", .rnum (r.timestamp : Int)), ("method", .rstr r.method),
        ("url", .rstr r.url), ("host", .rstr r.host), ("path", .rstr r.path),
        ("requestHeaders", encodeHeaders r.requestHeaders)]
    ++ optF "requestBody" (r.requestBody.map .rbuf)
    ++ optF "responseStatus" (r.responseStatus.map (fun n => .rnum (n : Int)))
    ++ optF "responseHeaders" (r.responseHeaders.map encodeHeaders)
    ++ optF "responseBody" (r.responseBody.map .rbuf)
    ++ optF "durationMs" (r.durationMs.map (fun n => .rnum (n : Int))))

/-- Summary row as it appears in an encoded reply. -/
def encodeSummary (s : RequestSummary) : RVal :=
  .robj ([("id", .rstr s.id), ("sessionId", .rstr s.sessionId)]
    ++ optF "label" (s.label.map .rstr)
    ++ [("timestamp", .rnum (s.timestamp : Int)), ("method", .rstr s.method),
        ("url", .rstr s.url), ("host", .rstr s.host), ("path", .rstr s.path)]
    ++ optF "responseStatus" (s.responseStatus.map (fun n => .rnum (n : Int)))
    ++ optF "durationMs" (s.durationMs.map (fun n => .rnum (n : Int)))
    ++ [("requestBodySize", .rnum (s.requestBodySize : Int)),
        ("responseBodySize", .rnum (s.responseBodySize : Int))])

/-- Server construction options relevant to the handlers. -/
structure ServerOptions where
  proxyPort : Nat
  version : String
deriving Repr, DecidableEq

/-- Handler signature: parameter bag and store in, either an encoded
result and the updated store, or a thrown error message. -/
def ControlHandler : Type :=
  JVal → Storage → Except String (RVal × Storage)

/-- Handler for status. -/
def statusHandler (opts : ServerOptions) : ControlHandler := fun _ st =>
  .ok (.robj [("running", .rbool true),
      ("proxyPort", .rnum (opts.proxyPort : Int)),
      ("sessionCount", .rnum ((listSessions st).length : Int)),
      ("requestCount", .rnum ((countRequests st none none) : Int)),
      ("version", .rstr opts.version)], st)

/-- Handler for registerSession. -/
def registerSessionHandler : ControlHandler := fun p st =>
  let r := registerSession st (optionalString p "label")
    ((optionalNumber p "pid").map Int.toNat)
  .ok (encodeSession r.1, r.2)

/-- Handler for listSessions. -/
def listSessionsHandler : ControlHandler := fun _ st =>
  .ok (.rarr ((listSessions st).map encodeSession), st)

/-- Handler for listRequests. -/
def listRequestsHandler : ControlHandler := fun p st =>
  .ok (.rarr ((listRequests st (filterOfParams p)).map encodeRequest), st)

/-- Handler for listRequestsSummary. -/
def listRequestsSummaryHandler : ControlHandler := fun p st =>
  .ok (.rarr ((listRequestsSummary st (filterOfParams p)).map encodeSummary), st)

/-- Handler for getRequest: requires a string id, answers null when the id
is unknown. -/
def getRequestHandler : ControlHandler := fun p st =>
  match requireString p "id" with
  | .error e => .error e
  | .ok id =>
      match getRequest st id with
      | some r => .ok (encodeRequest r, st)
      | none => .ok (.rnull, st)

/-- Handler for countRequests. -/
def countRequestsHandler : ControlHandler := fun p st =>
  .ok (.rnum ((countRequests st (optionalString p "sessionId")
    (optionalString p "label")) : Int), st)

/-- Handler for clearRequests. -/
def clearRequestsHandler : ControlHandler := fun _ st =>
  .ok (.robj [("success", .rbool true)], clearRequests st)

/-- Handler for ping. -/
def pingHandler : ControlHandler := fun _ st =>
  .ok (.robj [("pong", .rbool true)], st)

/-- Own properties of the handlers object literal in createControlServer,
in declaration order. -/
def controlMethodNames : List String :=
  ["status", "registerSession", "listSessions", "listRequests",
    "listRequestsSummary", "getRequest", "countRequests", "clearRequests",
    "ping"]

/-- Property names of Object.prototype.  The handlers object literal
inherits from Object.prototype, so the JS membership test
method in handlers also succeeds for these inherited names — a frame
naming one of them is not answered method-not-found but dispatched to the
inherited member inside the try block. -/
def objectPrototypeKeys : List String :=
  ["constructor", "hasOwnProperty", "isPrototypeOf", "propertyIsEnumerable",
    "toLocaleString", "toString", "valueOf", "__defineGetter__",
    "__defineSetter__", "__lookupGetter__", "__lookupSetter__", "__proto__"]

/-- The membership test method in handlers: true for the record's own
keys and for the property names inherited from Object.prototype. -/
def methodInHandlers (m : String) : Bool :=
  controlMethodNames.contains m || objectPrototypeKeys.contains m

/-- Handler bound to an own key of the handlers record (none for the
inherited Object.prototype members, whose values are platform builtins,
not handlers of this repository). -/
def lookupHandler (opts : ServerOptions) (m : String) : Option ControlHandler :=
  if m = "status" then some (statusHandler opts)
  else if m = "registerSession" then some registerSessionHandler
  else if m = "listSessions" then some listSessionsHandler
  else if m = "listRequests" then some listRequestsHandler
  else if m = "listRequestsSummary" then some listRequestsSummaryHandler
  else if m = "getRequest" then some getRequestHandler
  else if m = "countRequests" then some countRequestsHandler
  else if m = "clearRequests" then some clearRequestsHandler
  else if m = "ping" then some pingHandler
  else none

/-- Shallow embedding of handleMessage (control.ts): a method name failing
the membership test method in handlers gets a method-not-found error reply
tagged with the frame's id; a name passing it is looked up and called with
params ?? an empty bag inside the try block, a throw becoming a generic
failure reply (code -32000) and a normal return a result reply.  For an
inherited Object.prototype name the extracted value is a platform builtin
(e.g. toString returns a tag string when called this way, hasOwnProperty
throws on an undefined this); its outcome is supplied by the proto oracle,
exactly as JSON.parse is an oracle to the frame loop — such a call never
touches the store.  The store is threaded through. -/
def handleMessage (proto : String → JVal → Except String RVal)
    (opts : ServerOptions) (msg : ControlMessage)
    (st : Storage) : ControlResponse × Storage :=
  if methodInHandlers msg.method = false then
    ({ id := msg.id, result := none,
        error := some ⟨-32601, "Method not found: " ++ msg.method⟩ }, st)
  else
    match lookupHandler opts msg.method with
    | some h =>
        match h (paramsOrEmpty msg.params) st with
        | .ok (v, st2) =>
            ({ id := msg.id, result := some v, error := none }, st2)
        | .error e =>
            ({ id := msg.id, result := none, error := some ⟨-32000, e⟩ }, st)
    | none =>
        match proto msg.method (paramsOrEmpty msg.params) with
        | .ok v => ({ id := msg.id, result := some v, error := none }, st)
        | .error e =>
            ({ id := msg.id, result := none, error := some ⟨-32000, e⟩ }, st)

/-- Reply written by the catch block of the per-frame loop: placeholder id
(the real id could not be trusted), parse-error code -32700, and the
thrown message. -/
def parseErrorResponse (e : String) : ControlResponse :=
  { id := "unknown", result := none,
    error := some ⟨-32700, "Parse error: " ++ e⟩ }

/-- Message of the error thrown when the runtime type guard rejects a
decoded frame. -/
def invalidControlMessageText : String :=
  "Invalid control message: missing id or method"

/-- Processing of one complete frame by the server loop.  JSON.parse is a
platform primitive and enters the model as the parse argument (returning
either the decoded value or the thrown message).  A parse failure or a
frame rejected by the type guard yields the catch block's parse-error
reply; otherwise the frame is dispatched through handleMessage.  Exactly
one reply is produced either way and the connection is left open. -/
def processFrame (parse : String → Except String JVal)
    (proto : String → JVal → Except String RVal) (opts : ServerOptions)
    (frameText : String) (st : Storage) : ControlResponse × Storage :=
  match parse frameText with
  | .error e => (parseErrorResponse e, st)
  | .ok v =>
      if isControlMessage v then
        handleMessage proto opts (toControlMessage v) st
      else (parseErrorResponse invalidControlMessageText, st)

/-- Processing of a list of complete frames in order, accumulating the
replies written back on the connection. -/
def processFrames (parse : String → Except String JVal)
    (proto : String → JVal → Except String RVal) (opts : ServerOptions)
    (frames : List String) (st : Storage) : List ControlResponse × Storage :=
  match frames with
  | [] => ([], st)
  | f :: fs =>
      let r := processFrame parse proto opts f st
      let rest := processFrames parse proto opts fs r.2
      (r.1 :: rest.1, rest.2)

/-- Client-side timeout window installed via socket.setTimeout, in
milliseconds (CONTROL_TIMEOUT_MS in control-client.ts). -/
def controlTimeoutMs : Nat := 5000

/-- Message of the dedicated error the timeout handler rejects with. -/
def controlTimeoutText : String := "Control request timed out"

/-- Socket events a pending client call can observe. -/
inductive ClientEvent where
  | connectEvt : ClientEvent
  | dataEvt : String → ClientEvent
  | errorEvt : String → ClientEvent
  | timeoutEvt : ClientEvent
deriving Repr, DecidableEq

/-- Settlement state of the promise returned by ControlClient.request. -/
inductive CallOutcome where
  | pending : CallOutcome
  | resolvedOut : RVal → CallOutcome
  | rejectedOut : String → CallOutcome
deriving Repr

/-- State of one in-flight client call: receive buffer, promise
settlement, and whether the socket was ended or destroyed. -/
structure ClientState where
  buffer : String
  outcome : CallOutcome
  ended : Bool
  destroyed : Bool
deriving Repr

/-- State of a call just after the socket is created. -/
def initialClientState : ClientState :=
  { buffer := "", outcome := .pending, ended := false, destroyed := false }

/-- Settlement of the call promise: the first resolution or rejection
wins, later an ignored no-op, as for a JS promise. -/
def settle (s : ClientState) (o : CallOutcome) : ClientState :=
  match s.outcome with
  | .pending => { s with outcome := o }
  | _ => s

/-- JavaScript truthiness of a decoded value, as applied by the client to
the error property of a reply. -/
def truthy : JVal → Bool
  | .jnull => false
  | .jbool b => b
  | .jnum n => !(n == 0)
  | .jstr s => !(s == "")
  | .jarr _ => true
  | .jobj _ => true

/-- Message read off a reply's error property (empty when it is not a
string, standing for the stringification of a missing property). -/
def errMessageOf (v : JVal) : String :=
  match getParam v "message" with
  | some (.jstr m) => m
  | _ => ""

/-- Result property of a reply, revived; an absent property is modelled as
null. -/
def resultOf (v : JVal) : RVal :=
  match getParam v "result" with
  | some r => reviveBuffers r
  | none => .rnull

/-- Prefix before the first newline of the client buffer, when a complete
reply frame is buffered (buffer.indexOf and slice in the data handler). -/
def firstFrame (buf : String) : Option String :=
  if '\n' ∈ buf.toList then some (String.mk (buf.toList.takeWhile (fun c => !(c == '\n'))))
  else none

/-- Data handler of ControlClient.request: append the chunk; when a
newline is present, parse the prefix, end the socket, and settle the
promise — rejecting with the reply's error message when its error
property is truthy, resolving with the revived result otherwise, and
rejecting with the thrown message when parsing fails.  The source never
trims the consumed prefix from the buffer; the model keeps that. -/
def onClientData (parse : String → Except String JVal) (s : ClientState)
    (chunk : String) : ClientState :=
  let s1 := { s with buffer := s.buffer ++ chunk }
  match firstFrame s1.buffer with
  | none => s1
  | some frameText =>
      match parse frameText with
      | .error e => settle { s1 with ended := true } (.rejectedOut e)
      | .ok v =>
          match getParam v "error" with
          | some errv =>
              if truthy errv then
                settle { s1 with ended := true } (.rejectedOut (errMessageOf errv))
              else settle { s1 with ended := true } (.resolvedOut (resultOf v))
          | none => settle { s1 with ended := true } (.resolvedOut (resultOf v))

/-- One socket event processed by the handlers ControlClient.request
installs: connect writes the request (no state change observable here),
data runs the data handler, error rejects with the transport message, and
the timeout destroys the socket and rejects with the dedicated timeout
error. -/
def clientStep (parse : String → Except String JVal) (s : ClientState) :
    ClientEvent → ClientState
  | .connectEvt => s
  | .dataEvt chunk => onClientData parse s chunk
  | .errorEvt m => settle s (.rejectedOut m)
  | .timeoutEvt => settle { s with destroyed := true } (.rejectedOut controlTimeoutText)

/-- A whole observed event sequence of one client call. -/
def runCall (parse : String → Except String JVal)
    (events : List ClientEvent) : ClientState :=
  events.foldl (clientStep parse) initialClientState

/-- Modelled from the spec: on-disk state of the embedded store as the
migration engine sees it (src/daemon/storage.ts is not part of the
snapshot).  userVersion is the persisted schema-version counter, schema
abstracts the column list of the requests table, rows the stored data. -/
structure DbState where
  userVersion : Nat
  schema : List String
  rows : List (List String)
deriving Repr, DecidableEq

/-- One migration step: a fallible forward schema change. -/
def Migration : Type :=
  DbState → Except String DbState

/-- Sequential application of the steps of one batch inside the
transaction scratch state; the first failing step aborts the batch. -/
def applySteps (s : DbState) : List Migration → Except String DbState
  | [] => .ok s
  | m :: rest =>
      match m s with
      | .error e => .error e
      | .ok s2 => applySteps s2 rest

/-- Modelled from the spec: the final-form schema created directly for a
brand-new store (the full CREATE TABLE of the requests table, truncation
columns included). -/
def finalSchema : List String :=
  ["id", "session_id", "label", "timestamp", "method", "url", "host",
    "path", "request_headers", "request_body", "response_status",
    "response_headers", "response_body", "duration_ms", "created_at",
    "request_body_truncated", "response_body_truncated"]

/-- Modelled from the spec: a brand-new, empty store is created in final
form and stamped directly at version N, the migration count.  Only the
length of the migration list enters; no step function is consulted. -/
def freshDb (migs : List Migration) : DbState :=
  { userVersion := migs.length, schema := finalSchema, rows := [] }

/-- Modelled from the spec: opening a store against the migration list.
A missing database is created fresh in final form.  An existing store at
version V < N applies steps V+1..N in one atomic unit and persists the
new version counter as the last action of that unit; on any step's
failure the entire unit is discarded and the on-disk state — version
counter included — is exactly the state before the attempt.  A store
already at version N is untouched.  The error of a failing step surfaces
verbatim. -/
def openStore (migs : List Migration) (disk : Option DbState) :
    Except String Unit × DbState :=
  match disk with
  | none => (.ok (), freshDb migs)
  | some s =>
      if s.userVersion < migs.length then
        match applySteps s (migs.drop s.userVersion) with
        | .ok s2 => (.ok (), { s2 with userVersion := migs.length })
        | .error e => (.error e, s)
      else (.ok (), s)

/-- Sample migration in the style of the real batch: add the
request-truncation column. -/
def migAddColumn : Migration := fun s =>
  .ok { s with schema := s.schema ++ ["request_body_truncated"] }

/-- Sample failing migration, as when a column to add already exists. -/
def migFailing : Migration := fun _ =>
  .error "duplicate column name: response_body_truncated"

/-- Sample pre-migration store holding data, persisted at version 0. -/
def oldDb : DbState :=
  { userVersion := 0, schema := ["id"], rows := [["r1"]] }

/-- Sample session row. -/
def sampleSession : Session :=
  { id := "same-id", label := some "first", pid := 111, startedAt := 5 }

/-- Sample store holding one session. -/
def sampleStore : Storage :=
  { sessions := [sampleSession], requests := [], nextId := 0,
    selfPid := 1, now := 9 }

/-- Sample stored transaction with both bodies captured. -/
def sampleRequest : StoredRequest :=
  { id := "r1", sessionId := "same-id", label := some "api", timestamp := 7,
    method := "POST", url := "https://api.example.com/users",
    host := "api.example.com", path := "/users",
    requestHeaders := [("Content-Type", "application/json")],
    requestBody := some [123, 125],
    responseStatus := some 201,
    responseHeaders := some [("Content-Type", "application/json")],
    responseBody := some [123, 34, 105, 100, 34, 58, 49, 125],
    durationMs := some 100 }

theorem extractFrames_append (a b : List Char) :
    extractFrames (a ++ b) =
      ((extractFrames a).1 ++ (extractFrames ((extractFrames a).2 ++ b)).1,
        (extractFrames ((extractFrames a).2 ++ b)).2) := by
  induction a with
  | nil => simp [extractFrames]
  | cons c a ih =>
    by_cases hc : c = '\n'
    · subst hc
      simp [extractFrames, ih]
    · rcases ha : extractFrames a with ⟨fsa, ra⟩
      rcases hx : extractFrames (ra ++ b) with ⟨fx, rx⟩
      rcases fsa with _ | ⟨f, fs⟩ <;> rcases fx with _ | ⟨g, gs⟩ <;>
        simp [extractFrames, hc, ih, ha, hx]

theorem extractFrames_no_newline (s : List Char) (h : '\n' ∉ s) :
    extractFrames s = ([], s) := by
  induction s with
  | nil => rfl
  | cons c s ih =>
    have hc : c ≠ '\n' := fun hc => h (hc ▸ List.mem_cons_self c s)
    have hs : '\n' ∉ s := fun hs => h (List.mem_cons_of_mem c hs)
    simp [extractFrames, hc, ih hs]

theorem extractFrames_snd_no_newline (s : List Char) :
    '\n' ∉ (extractFrames s).2 := by
  induction s with
  | nil => simp [extractFrames]
  | cons c s ih =>
    by_cases hc : c = '\n'
    · simpa [extractFrames, hc] using ih
    · rcases hs : extractFrames s with ⟨fs, buf⟩
      rcases fs with _ | ⟨f, fr⟩ <;>
        simp_all [extractFrames, hc]
      exact fun h => hc h.symm

theorem extractFrames_count (s : List Char) :
    (extractFrames s).1.length = s.count '\n' := by
  induction s with
  | nil => simp [extractFrames]
  | cons c s ih =>
    by_cases hc : c = '\n'
    · simp [extractFrames, hc, List.count_cons, ih]
    · rcases hs : extractFrames s with ⟨fs, buf⟩
      rcases fs with _ | ⟨f, fr⟩ <;>
        simp_all [extractFrames, hc, List.count_cons, Ne.symm hc]

theorem runConn_go (chunks : List (List Char)) (acc : List (List Char) × List Char)
    (hacc : '\n' ∉ acc.2) :
    chunks.foldl
        (fun acc chunk =>
          ((acc.1 ++ (connStep acc.2 chunk).1, (connStep acc.2 chunk).2)))
        acc
      = (acc.1 ++ (extractFrames (acc.2 ++ chunks.flatten)).1,
          (extractFrames (acc.2 ++ chunks.flatten)).2) := by
  induction chunks generalizing acc with
  | nil =>
    simp [extractFrames_no_newline acc.2 hacc]
  | cons ch chunks ih =>
    rw [List.foldl_cons,
      ih (acc.1 ++ (connStep acc.2 ch).1, (connStep acc.2 ch).2)
        (by simpa [connStep] using extractFrames_snd_no_newline (acc.2 ++ ch))]
    simp only [connStep, List.flatten_cons]
    rw [show acc.2 ++ (ch ++ chunks.flatten) = (acc.2 ++ ch) ++ chunks.flatten by
      simp [List.append_assoc]]
    rw [extractFrames_append (acc.2 ++ ch) chunks.flatten]
    simp [List.append_assoc]

theorem runConn_join (chunks : List (List Char)) :
    runConn chunks = extractFrames chunks.flatten := by
  have h := runConn_go chunks ([], []) (by simp)
  simpa [runConn] using h

theorem extractFrames_terminated (f : List Char) (h : '\n' ∉ f) :
    extractFrames (f ++ ['\n']) = ([f], []) := by
  induction f with
  | nil => simp [extractFrames]
  | cons c f ih =>
    have hc : c ≠ '\n' := fun hc => h (hc ▸ List.mem_cons_self c f)
    have hf : '\n' ∉ f := fun hf => h (List.mem_cons_of_mem c hf)
    simp [extractFrames, hc, ih hf]

theorem lookup_serialiseFields (fs : List (String × RVal)) (key : String) :
    lookupField (serialiseFields fs) key =
      Option.map serialiseValue (lookupFieldR fs key) := by
  induction fs with
  | nil => rfl
  | cons kv fs ih =>
    rcases kv with ⟨k, v⟩
    by_cases hk : k = key <;>
      simp [serialiseFields, lookupField, lookupFieldR, hk, ih]

theorem isSerialisedBuffer_serialiseFields (fs : List (String × RVal)) :
    isSerialisedBuffer (serialiseFields fs) = isBufferShapedR fs := by
  unfold isSerialisedBuffer isBufferShapedR
  rw [lookup_serialiseFields, lookup_serialiseFields]
  rcases lookupFieldR fs "type" with _ | v1 <;>
    rcases lookupFieldR fs "data" with _ | v2
  · rfl
  · cases v2 <;> rfl
  · cases v1 <;> rfl
  · cases v1 <;> cases v2 <;> rfl

theorem bytes_roundtrip (bs : List Nat) (h : bs.all (fun b => decide (b < 256)) = true) :
    (bs.map (fun (b : Nat) => JVal.jnum (b : Int))).map toUint8 = bs := by
  induction bs with
  | nil => rfl
  | cons b bs ih =>
    simp only [List.all_cons, Bool.and_eq_true, decide_eq_true_eq] at h
    obtain ⟨h1, h2⟩ := h
    have hmod : ((b : Int)) % 256 = (b : Int) := by omega
    have ih2 := ih h2
    simp only [List.map_map] at ih2 ⊢
    simp [toUint8, hmod, ih2]

mutual

theorem revive_serialise_val (v : RVal) (hv : WfVal v = true) :
    reviveBuffers (serialiseValue v) = v := by
  cases v with
  | rnull => rfl
  | rbool b => rfl
  | rnum n => rfl
  | rstr s => rfl
  | rbuf bs =>
    have hb : bs.all (fun b => decide (b < 256)) = true := hv
    have hshape : isSerialisedBuffer
        [("type", JVal.jstr "Buffer"),
          ("data", JVal.jarr (bs.map (fun (b : Nat) => JVal.jnum (b : Int))))] = true := rfl
    have hdata : bufferData
        [("type", JVal.jstr "Buffer"),
          ("data", JVal.jarr (bs.map (fun (b : Nat) => JVal.jnum (b : Int))))]
        = bs.map (fun (b : Nat) => JVal.jnum (b : Int)) := rfl
    simp only [serialiseValue, reviveBuffers, hshape, if_true, hdata, bufferFrom]
    rw [bytes_roundtrip bs hb]
  | rarr xs =>
    have hxs : WfList xs = true := hv
    simp only [serialiseValue, reviveBuffers]
    rw [revive_serialise_list xs hxs]
  | robj fs =>
    have hv2 : (!(isBufferShapedR fs) && WfFields fs) = true := hv
    simp only [Bool.and_eq_true, Bool.not_eq_true'] at hv2
    simp only [serialiseValue, reviveBuffers, isSerialisedBuffer_serialiseFields fs, hv2.1]
    rw [revive_serialise_fields fs hv2.2]
    simp

theorem revive_serialise_list (xs : List RVal) (hxs : WfList xs = true) :
    reviveList (serialiseList xs) = xs := by
  cases xs with
  | nil => rfl
  | cons x xs =>
    simp only [WfList, Bool.and_eq_true] at hxs
    simp only [serialiseList, reviveList]
    rw [revive_serialise_val x hxs.1, revive_serialise_list xs hxs.2]

theorem revive_serialise_fields (fs : List (String × RVal)) (hfs : WfFields fs = true) :
    reviveFields (serialiseFields fs) = fs := by
  cases fs with
  | nil => rfl
  | cons kv fs =>
    rcases kv with ⟨k, v⟩
    simp only [WfFields, Bool.and_eq_true] at hfs
    simp only [serialiseFields, reviveFields]
    rw [revive_serialise_val v hfs.1, revive_serialise_fields fs hfs.2]

end

theorem reviveFields_keys (fs : List (String × JVal)) :
    (reviveFields fs).map Prod.fst = fs.map Prod.fst := by
  induction fs with
  | nil => rfl
  | cons kv fs ih =>
    rcases kv with ⟨k, v⟩
    simp [reviveFields, ih]

theorem processFrames_length (parse : String → Except String JVal)
    (proto : String → JVal → Except String RVal)
    (opts : ServerOptions) (frames : List String) (st : Storage) :
    (processFrames parse proto opts frames st).1.length = frames.length := by
  induction frames generalizing st with
  | nil => rfl
  | cons f fs ih => simp [processFrames, ih]

theorem mem_methodInHandlers (m : String) (hm : m ∈ controlMethodNames) :
    methodInHandlers m = true := by
  simp [methodInHandlers, hm]

theorem routed_not_method_not_found
    (proto : String → JVal → Except String RVal)
    (opts : ServerOptions) (m : String)
    (h : ControlHandler) (hm : lookupHandler opts m = some h)
    (hin : methodInHandlers m = true) (id : String)
    (p : Option JVal) (st : Storage) :
    ∀ err, (handleMessage proto opts ⟨id, m, p⟩ st).1.error = some err →
      err.code ≠ -32601 := by
  intro err herr
  unfold handleMessage at herr
  rw [show (⟨id, m, p⟩ : ControlMessage).method = m from rfl, hin] at herr
  simp only [Bool.true_eq_false, if_false] at herr
  rw [hm] at herr
  dsimp only at herr
  cases hres : h (paramsOrEmpty p) st with
  | error e =>
    rw [hres] at herr
    dsimp only at herr
    simp only [Option.some.injEq] at herr
    rw [← herr]
    intro hc
    simp at hc
  | ok pr =>
    obtain ⟨v, st2⟩ := pr
    rw [hres] at herr
    dsimp only at herr
    simp at herr

theorem lookupHandler_not_mem (opts : ServerOptions) (m : String)
    (hm : m ∉ controlMethodNames) : lookupHandler opts m = none := by
  unfold lookupHandler
  split_ifs with h1 h2 h3 h4 h5 h6 h7 h8 h9 <;>
    simp_all [controlMethodNames]

theorem quiet_steps (parse : String → Except String JVal)
    (events : List ClientEvent) (s : ClientState)
    (hs1 : s.outcome = .pending) (hs2 : '\n' ∉ s.buffer.toList)
    (h : ∀ e ∈ events, e = .connectEvt ∨
      ∃ chunk, e = .dataEvt chunk ∧ '\n' ∉ chunk.toList) :
    (events.foldl (clientStep parse) s).outcome = .pending
    ∧ '\n' ∉ (events.foldl (clientStep parse) s).buffer.toList := by
  induction events generalizing s with
  | nil => exact ⟨hs1, hs2⟩
  | cons e events ih =>
    have htail : ∀ e2 ∈ events, e2 = ClientEvent.connectEvt ∨
        ∃ chunk, e2 = .dataEvt chunk ∧ '\n' ∉ chunk.toList :=
      fun e2 he2 => h e2 (List.mem_cons_of_mem e he2)
    rcases h e (List.mem_cons_self e events) with rfl | ⟨chunk, rfl, hchunk⟩
    · exact ih s hs1 hs2 htail
    · rw [List.foldl_cons]
      have hbuf : '\n' ∉ (s.buffer ++ chunk).toList := by
        rw [show (s.buffer ++ chunk).toList = s.buffer.toList ++ chunk.toList
          from rfl]
        intro hmem
        rcases List.mem_append.mp hmem with hmem | hmem
        exacts [hs2 hmem, hchunk hmem]
      have hff : firstFrame (s.buffer ++ chunk) = none := by
        unfold firstFrame
        rw [if_neg hbuf]
      have hstep : clientStep parse s (.dataEvt chunk)
          = { s with buffer := s.buffer ++ chunk } := by
        show onClientData parse s chunk = _
        unfold onClientData
        simp only [hff]
      rw [hstep]
      exact ih _ hs1 hbuf htail

/-- C1: for a store persisted at version V with a migration list of length
N, V < N, when the batch of steps V+1..N fails at any step, opening
surfaces exactly that error and the persisted state afterwards — version
counter, schema and data — is exactly the state before the attempt, so no
change made by any step of the batch, already-succeeded steps included, is
observable. -/
theorem migration_rollback (migs : List Migration) (s : DbState) (e : String)
    (hv : s.userVersion < migs.length)
    (hfail : applySteps s (migs.drop s.userVersion) = .error e) :
    openStore migs (some s) = (.error e, s)
    ∧ (openStore migs (some s)).2.userVersion = s.userVersion
    ∧ (openStore migs (some s)).2.schema = s.schema
    ∧ (openStore migs (some s)).2.rows = s.rows := by
  have h : openStore migs (some s) = (.error e, s) := by
    simp [openStore, hv, hfail]
  exact ⟨h, by rw [h], by rw [h], by rw [h]⟩

/-- Witness for C1: a two-step batch over a version-0 store whose first
step succeeds and whose second step fails rolls back to the original
state. -/
theorem migration_rollback_witness :
    oldDb.userVersion < ([migAddColumn, migFailing] : List Migration).length
    ∧ applySteps oldDb
        (([migAddColumn, migFailing] : List Migration).drop oldDb.userVersion)
        = .error "duplicate column name: response_body_truncated"
    ∧ openStore [migAddColumn, migFailing] (some oldDb)
        = (.error "duplicate column name: response_body_truncated", oldDb) :=
  ⟨by decide, rfl,
    (migration_rollback [migAddColumn, migFailing] oldDb
      "duplicate column name: response_body_truncated" (by decide) rfl).1⟩

/-- C2: opening a brand-new, empty store creates the final schema directly
and stamps version N, the full migration count; the result depends only on
the count, never on the step functions — no historical step executes — and
re-opening the resulting store at version N is a successful no-op. -/
theorem fresh_store_final_form (migs migs2 : List Migration)
    (hlen : migs.length = migs2.length) :
    openStore migs none = (.ok (), freshDb migs)
    ∧ (freshDb migs).userVersion = migs.length
    ∧ (freshDb migs).schema = finalSchema
    ∧ openStore migs none = openStore migs2 none
    ∧ openStore migs (some (freshDb migs)) = (.ok (), freshDb migs) := by
  refine ⟨rfl, rfl, rfl, ?_, ?_⟩
  · simp [openStore, freshDb, hlen]
  · simp [openStore, freshDb]

/-- Witness for C2: the fresh-open result is the same for a batch holding
a failing step as for one holding a working step — the steps never run. -/
theorem fresh_store_final_form_witness :
    ([migFailing] : List Migration).length
        = ([migAddColumn] : List Migration).length
    ∧ openStore [migFailing] none = (.ok (), freshDb [migFailing])
    ∧ openStore [migFailing] none = openStore [migAddColumn] none :=
  ⟨rfl, (fresh_store_final_form [migFailing] [migAddColumn] rfl).1,
    (fresh_store_final_form [migFailing] [migAddColumn] rfl).2.2.2.1⟩

/-- C3: decoding the encoded wire form — JSON serialisation followed by
reviveBuffers — reproduces every wellformed value exactly, in particular
every nested binary payload's byte sequence, zero-length payloads
included; and an object failing the exact discriminator test (type not
exactly the string Buffer, or data not an array) is not collapsed into a
Buffer: it stays an object with exactly its original keys, its field
values decoded pointwise. -/
theorem codec_roundtrip_exact (v : RVal) (fs : List (String × JVal))
    (hv : WfVal v = true) (hfs : isSerialisedBuffer fs = false) :
    reviveBuffers (serialiseValue v) = v
    ∧ reviveBuffers (.jobj fs) = .robj (reviveFields fs)
    ∧ (reviveFields fs).map Prod.fst = fs.map Prod.fst := by
  refine ⟨revive_serialise_val v hv, ?_, reviveFields_keys fs⟩
  simp [reviveBuffers, hfs]

/-- Witness for C3 at a nested value holding a zero-length payload and a
payload with extremal bytes, and at a near-miss object whose tag is not
exactly Buffer. -/
theorem codec_roundtrip_exact_witness :
    WfVal (RVal.robj [("a", .rarr [.rbuf [], .rbuf [0, 255]]),
        ("t", .rstr "x")]) = true
    ∧ isSerialisedBuffer [("type", JVal.jstr "NotBuffer"),
        ("data", .jarr [.jnum 1])] = false
    ∧ (reviveBuffers (serialiseValue (RVal.robj
            [("a", .rarr [.rbuf [], .rbuf [0, 255]]), ("t", .rstr "x")]))
          = RVal.robj [("a", .rarr [.rbuf [], .rbuf [0, 255]]),
              ("t", .rstr "x")]
        ∧ reviveBuffers (.jobj [("type", JVal.jstr "NotBuffer"),
              ("data", .jarr [.jnum 1])])
            = .robj (reviveFields [("type", JVal.jstr "NotBuffer"),
                ("data", .jarr [.jnum 1])])
        ∧ (reviveFields [("type", JVal.jstr "NotBuffer"),
              ("data", .jarr [.jnum 1])]).map Prod.fst
            = [("type", JVal.jstr "NotBuffer"),
                ("data", .jarr [.jnum 1])].map Prod.fst) :=
  ⟨rfl, rfl,
    codec_roundtrip_exact
      (RVal.robj [("a", .rarr [.rbuf [], .rbuf [0, 255]]), ("t", .rstr "x")])
      [("type", JVal.jstr "NotBuffer"), ("data", .jarr [.jnum 1])] rfl rfl⟩

/-- C4: the dispatcher's per-connection buffering is chunking-invariant —
over any sequence of data events exactly the complete newline-delimited
frames of the concatenated stream are dispatched, in order; a single data
event on a (necessarily newline-free) buffer dispatches exactly as many
frames as the chunk carries delimiters, be that zero, one, or many; and a
frame split across two data events is dispatched exactly once, when its
delimiter arrives. -/
theorem dispatcher_frames (chunks : List (List Char))
    (buf chunk pre post : List Char)
    (hbuf : '\n' ∉ buf) (hpre : '\n' ∉ pre) (hpost : '\n' ∉ post) :
    runConn chunks = extractFrames chunks.flatten
    ∧ (connStep buf chunk).1.length = chunk.count '\n'
    ∧ runConn [pre, post ++ ['\n']] = ([pre ++ post], []) := by
  refine ⟨runConn_join chunks, ?_, ?_⟩
  · rw [connStep, extractFrames_count]
    simp [List.count_append, List.count_eq_zero.mpr hbuf]
  · rw [runConn_join]
    have hnp : '\n' ∉ pre ++ post := by
      intro hmem
      rcases List.mem_append.mp hmem with hmem | hmem
      exacts [hpre hmem, hpost hmem]
    have hfl : ([pre, post ++ ['\n']] : List (List Char)).flatten
        = (pre ++ post) ++ ['\n'] := by
      simp
    rw [hfl, extractFrames_terminated (pre ++ post) hnp]

/-- Witness for C4: one chunk carrying two delimiters dispatches two
frames, and the frame bc split as b then c-newline is dispatched once. -/
theorem dispatcher_frames_witness :
    ('\n' ∉ (['a'] : List Char)) ∧ ('\n' ∉ (['b'] : List Char))
    ∧ ('\n' ∉ (['c'] : List Char))
    ∧ (runConn [['x', '\n'], ['y']]
          = extractFrames ([['x', '\n'], ['y']] : List (List Char)).flatten
        ∧ (connStep ['a'] ['b', '\n', 'c', '\n']).1.length
            = (['b', '\n', 'c', '\n'] : List Char).count '\n'
        ∧ runConn [['b'], ['c'] ++ ['\n']] = ([['b'] ++ ['c']], [])) :=
  ⟨by decide, by decide, by decide,
    dispatcher_frames [['x', '\n'], ['y']] ['a'] ['b', '\n', 'c', '\n']
      ['b'] ['c'] (by decide) (by decide) (by decide)⟩

/-- C5: ensureSession is idempotent by caller-supplied id — a second call
with the same id and arbitrary other label and pid returns exactly the
first call's session and leaves the store exactly as the first call left
it; and whenever the id is already present, the call returns the stored
row unchanged (original label, pid and startedAt) and is a no-op on the
store. -/
theorem ensureSession_idempotent (st st2 : Storage) (id id2 : String)
    (l1 l2 l3 : Option String) (p1 p2 p3 : Option Nat) (s : Session)
    (hs : findSession st2 id2 = some s) :
    ensureSession (ensureSession st id l1 p1).2 id l2 p2
        = ensureSession st id l1 p1
    ∧ ensureSession st2 id2 l3 p3 = (s, st2) := by
  constructor
  · cases h : findSession st id with
    | some s0 =>
      simp [ensureSession, h]
    | none =>
      have hfind2 : findSession
          { st with sessions :=
              st.sessions ++ [⟨id, l1, p1.getD st.selfPid, st.now⟩] } id
          = some ⟨id, l1, p1.getD st.selfPid, st.now⟩ := by
        unfold findSession at h ⊢
        rw [List.find?_append, h]
        simp
      simp [ensureSession, h, hfind2]
  · simp [ensureSession, hs]

/-- Witness for C5: the second call with a different label and pid returns
the original row first-writer-wins. -/
theorem ensureSession_idempotent_witness :
    findSession sampleStore "same-id" = some sampleSession
    ∧ (ensureSession
          (ensureSession emptyStorage "e1" (some "a") (some 1)).2 "e1"
          (some "b") (some 2)
        = ensureSession emptyStorage "e1" (some "a") (some 1)
      ∧ ensureSession sampleStore "same-id" (some "second") (some 222)
          = (sampleSession, sampleStore)) :=
  ⟨rfl,
    ensureSession_idempotent emptyStorage sampleStore "e1" "same-id"
      (some "a") (some "b") (some "second") (some 1) (some 2) (some 222)
      sampleSession rfl⟩

/-- C6: the summary projection exposes no body and no header data — the
RequestSummary type has no such fields, the projection is unchanged under
arbitrary replacement of either header map, and a body influences it only
through its length — while requestBodySize and responseBodySize equal the
byte length of the corresponding stored body, 0 (never a null marker)
when no body was captured; listRequestsSummary is exactly the filtered
listing projected row by row. -/
theorem summary_projection (st : Storage) (f : ListFilter)
    (r : StoredRequest) (h1 h2 : List (String × String))
    (oh oh2 : Option (List (String × String))) (b b2 : Option (List Nat))
    (hb : bodySize b = bodySize b2) :
    listRequestsSummary st f = (listRequests st f).map toSummary
    ∧ (toSummary r).requestBodySize = bodySize r.requestBody
    ∧ (toSummary r).responseBodySize = bodySize r.responseBody
    ∧ bodySize none = 0
    ∧ toSummary { r with requestHeaders := h1, responseHeaders := oh }
        = toSummary { r with requestHeaders := h2, responseHeaders := oh2 }
    ∧ toSummary { r with requestBody := b }
        = toSummary { r with requestBody := b2 } := by
  refine ⟨rfl, rfl, rfl, rfl, rfl, ?_⟩
  simp [toSummary, hb]

/-- Witness for C6 at a stored transaction with both bodies captured and
two different same-length replacement bodies. -/
theorem summary_projection_witness :
    bodySize (some [1, 2]) = bodySize (some [3, 4])
    ∧ ((toSummary sampleRequest).requestBodySize
          = bodySize sampleRequest.requestBody
      ∧ toSummary { sampleRequest with requestBody := some [1, 2] }
          = toSummary { sampleRequest with requestBody := some [3, 4] }) :=
  ⟨rfl,
    (summary_projection emptyStorage ⟨none, none, none, none⟩ sampleRequest
        [] [] none none (some [1, 2]) (some [3, 4]) rfl).2.1,
    (summary_projection emptyStorage ⟨none, none, none, none⟩ sampleRequest
        [] [] none none (some [1, 2]) (some [3, 4]) rfl).2.2.2.2.2⟩

/-- C7: a complete frame whose text fails JSON parsing, or whose decoded
value the runtime type guard rejects (no string id or no string method),
is answered — never dropped and never fatal to the connection — with the
catch block's parse-error reply: placeholder id unknown rather than the
frame's own id, error code -32700; and the loop writes exactly one reply
per extracted frame. -/
theorem invalid_frame_parse_error (parse : String → Except String JVal)
    (proto : String → JVal → Except String RVal)
    (opts : ServerOptions) (frameText : String) (st : Storage)
    (frames : List String)
    (h : (∃ e, parse frameText = .error e)
      ∨ (∃ v, parse frameText = .ok v ∧ isControlMessage v = false)) :
    (∃ m, processFrame parse proto opts frameText st
        = ({ id := "unknown", result := none, error := some ⟨-32700, m⟩ }, st))
    ∧ (processFrames parse proto opts frames st).1.length = frames.length := by
  refine ⟨?_, processFrames_length parse proto opts frames st⟩
  rcases h with ⟨e, he⟩ | ⟨v, hv, hg⟩
  · exact ⟨"Parse error: " ++ e, by simp [processFrame, he, parseErrorResponse]⟩
  · exact ⟨"Parse error: " ++ invalidControlMessageText,
      by simp [processFrame, hv, hg, parseErrorResponse]⟩

/-- Witness for C7: a frame whose parse throws, with a parse oracle that
always throws, against a two-frame batch for the reply count. -/
theorem invalid_frame_parse_error_witness :
    ((∃ e, (fun (_ : String) => (Except.error "Unexpected token x" :
          Except String JVal)) "x" = .error e)
      ∨ (∃ v, (fun (_ : String) => (Except.error "Unexpected token x" :
          Except String JVal)) "x" = .ok v ∧ isControlMessage v = false))
    ∧ ((∃ m, processFrame
          (fun (_ : String) => (Except.error "Unexpected token x" :
            Except String JVal))
          (fun _ _ => .error "never") ⟨8080, "0.1.0"⟩ "x" emptyStorage
          = (⟨"unknown", none, some ⟨-32700, m⟩⟩, emptyStorage))
      ∧ (processFrames
            (fun (_ : String) => (Except.error "Unexpected token x" :
              Except String JVal))
            (fun _ _ => .error "never") ⟨8080, "0.1.0"⟩ ["a", "b"]
            emptyStorage).1.length = (["a", "b"] : List String).length) :=
  ⟨Or.inl ⟨"Unexpected token x", rfl⟩,
    invalid_frame_parse_error
      (fun (_ : String) => (Except.error "Unexpected token x" :
        Except String JVal))
      (fun _ _ => .error "never") ⟨8080, "0.1.0"⟩ "x" emptyStorage ["a", "b"]
      (Or.inl ⟨"Unexpected token x", rfl⟩)⟩

/-- C8 counterexample: a structurally valid frame naming searchBodies — an
operation the claim lists as exposed — is answered by the dispatcher with
the method-not-found error, not routed to a handler. -/
theorem searchBodies_method_not_found :
    handleMessage (fun _ _ => .error "handler is not a function")
        ⟨8080, "0.1.0"⟩ ⟨"1", "searchBodies", none⟩ emptyStorage
      = (⟨"1", none, some ⟨-32601, "Method not found: " ++ "searchBodies"⟩⟩,
        emptyStorage) := rfl

/-- C8 (amended): the operation set the dispatcher exposes is exactly
status, registerSession, listSessions, listRequests, listRequestsSummary,
getRequest, countRequests, clearRequests and ping — the handlers record
binds a handler for precisely these names, and a structurally valid frame
naming one of them is routed to its handler and never answered with
method-not-found — while searchBodies and queryJsonBodies are not among
them: a structurally valid frame naming either is answered with the
method-not-found error (code -32601) naming it. -/
theorem dispatcher_method_set (proto : String → JVal → Except String RVal)
    (opts : ServerOptions) (st : Storage)
    (id : String) (p : Option JVal) (m m2 : String)
    (hm : m ∈ controlMethodNames) :
    ((∃ h, lookupHandler opts m2 = some h) ↔ m2 ∈ controlMethodNames)
    ∧ (∀ err, (handleMessage proto opts ⟨id, m, p⟩ st).1.error = some err →
        err.code ≠ -32601)
    ∧ handleMessage proto opts ⟨id, "searchBodies", p⟩ st
        = (⟨id, none,
            some ⟨-32601, "Method not found: " ++ "searchBodies"⟩⟩, st)
    ∧ handleMessage proto opts ⟨id, "queryJsonBodies", p⟩ st
        = (⟨id, none,
            some ⟨-32601, "Method not found: " ++ "queryJsonBodies"⟩⟩, st) := by
  refine ⟨⟨?_, ?_⟩, ?_, rfl, rfl⟩
  · rintro ⟨h, hh⟩
    by_contra hmem
    rw [lookupHandler_not_mem opts m2 hmem] at hh
    exact Option.noConfusion hh
  · intro hmem
    simp only [controlMethodNames, List.mem_cons, List.not_mem_nil,
      or_false] at hmem
    rcases hmem with rfl | rfl | rfl | rfl | rfl | rfl | rfl | rfl | rfl
    all_goals exact ⟨_, rfl⟩
  · have hsome : ∃ h, lookupHandler opts m = some h := by
      simp only [controlMethodNames, List.mem_cons, List.not_mem_nil,
        or_false] at hm
      rcases hm with rfl | rfl | rfl | rfl | rfl | rfl | rfl | rfl | rfl
      all_goals exact ⟨_, rfl⟩
    obtain ⟨h, hh⟩ := hsome
    exact routed_not_method_not_found proto opts m h hh
      (mem_methodInHandlers m hm) id p st

/-- Witness for C8: ping is among the nine own keys, its frame is routed
(the reply is never method-not-found), and at the same concrete store and
oracle the searchBodies and queryJsonBodies frames are answered with
method-not-found. -/
theorem dispatcher_method_set_witness :
    ("ping" ∈ controlMethodNames)
    ∧ ((∃ h, lookupHandler ⟨8080, "0.1.0"⟩ "ping" = some h) ↔
        "ping" ∈ controlMethodNames)
    ∧ (∀ err, (handleMessage (fun _ _ => .error "x") ⟨8080, "0.1.0"⟩
          ⟨"7", "ping", none⟩ emptyStorage).1.error = some err →
        err.code ≠ -32601)
    ∧ handleMessage (fun _ _ => .error "x") ⟨8080, "0.1.0"⟩
        ⟨"7", "queryJsonBodies", none⟩ emptyStorage
        = (⟨"7", none,
            some ⟨-32601, "Method not found: " ++ "queryJsonBodies"⟩⟩,
          emptyStorage) :=
  ⟨by decide,
    (dispatcher_method_set (fun _ _ => .error "x") ⟨8080, "0.1.0"⟩
      emptyStorage "7" none "ping" "ping" (by decide)).1,
    (dispatcher_method_set (fun _ _ => .error "x") ⟨8080, "0.1.0"⟩
      emptyStorage "7" none "ping" "ping" (by decide)).2.1,
    (dispatcher_method_set (fun _ _ => .error "x") ⟨8080, "0.1.0"⟩
      emptyStorage "7" none "ping" "ping" (by decide)).2.2.2⟩

/-- C9: a client call that has observed only its connect event and
delimiter-free data up to the moment the inactivity timeout fires ends
rejected with the dedicated timeout error — the fixed text Control
request timed out, not a generic failure — with its socket destroyed,
whatever the dispatcher state; and the installed window is 5000 ms. -/
theorem client_timeout (parse : String → Except String JVal)
    (pre : List ClientEvent)
    (h : ∀ e ∈ pre, e = .connectEvt ∨
      ∃ chunk, e = .dataEvt chunk ∧ '\n' ∉ chunk.toList) :
    (runCall parse (pre ++ [.timeoutEvt])).outcome
        = .rejectedOut controlTimeoutText
    ∧ (runCall parse (pre ++ [.timeoutEvt])).destroyed = true
    ∧ controlTimeoutMs = 5000
    ∧ controlTimeoutText = "Control request timed out" := by
  have hq := quiet_steps parse pre initialClientState rfl (by decide) h
  have hrw : runCall parse (pre ++ [.timeoutEvt])
      = clientStep parse (pre.foldl (clientStep parse) initialClientState)
          .timeoutEvt := by
    unfold runCall
    rw [List.foldl_append]
    rfl
  set sfin := pre.foldl (clientStep parse) initialClientState with hsfin
  have hstep : clientStep parse sfin .timeoutEvt
      = { sfin with
              destroyed := true,
              outcome := .rejectedOut controlTimeoutText } := by
    show settle { sfin with destroyed := true }
      (.rejectedOut controlTimeoutText) = _
    unfold settle
    rw [show ({ sfin with destroyed := true } : ClientState).outcome
        = sfin.outcome from rfl, hq.1]
  rw [hrw, hstep]
  exact ⟨rfl, rfl, rfl, rfl⟩

/-- Witness for C9: a call that saw its connect event and one partial
reply chunk before the timeout fired. -/
theorem client_timeout_witness :
    (∀ e ∈ ([ClientEvent.connectEvt, ClientEvent.dataEvt "par"] :
        List ClientEvent), e = .connectEvt ∨
      ∃ chunk, e = .dataEvt chunk ∧ '\n' ∉ chunk.toList)
    ∧ (runCall (fun _ => .error "never")
          ([ClientEvent.connectEvt, ClientEvent.dataEvt "par"]
            ++ [.timeoutEvt])).outcome
        = .rejectedOut controlTimeoutText
    ∧ controlTimeoutMs = 5000 := by
  have hpre : ∀ e ∈ ([ClientEvent.connectEvt, ClientEvent.dataEvt "par"] :
      List ClientEvent), e = .connectEvt ∨
      ∃ chunk, e = .dataEvt chunk ∧ '\n' ∉ chunk.toList := by
    intro e he
    simp only [List.mem_cons, List.not_mem_nil, or_false] at he
    rcases he with rfl | rfl
    · exact Or.inl rfl
    · exact Or.inr ⟨"par", rfl, by decide⟩
  have hmain := client_timeout (fun _ => .error "never")
    [ClientEvent.connectEvt, ClientEvent.dataEvt "par"] hpre
  exact ⟨hpre, hmain.1, hmain.2.2.1⟩

/-- C10: an object whose type property is exactly the string Buffer and
whose data property is an array is always replaced by the Buffer built
from that array — for a numeric array this is Buffer.from of the numbers,
each wrapped to an unsigned byte — so such an object never survives
decoding as an object, and two different inputs of this shape (differing
only in field order) decode to the same Buffer: decoding is not
injective. -/
theorem buffer_shape_collapses :
    (∀ ns : List Int,
      reviveBuffers (.jobj [("type", .jstr "Buffer"),
          ("data", .jarr (ns.map .jnum))])
        = .rbuf (ns.map (fun n => (n % 256).toNat)))
    ∧ (∀ ds : List JVal,
        reviveBuffers (.jobj [("type", .jstr "Buffer"), ("data", .jarr ds)])
          = .rbuf (bufferFrom ds))
    ∧ (∃ a b : JVal, a ≠ b ∧ reviveBuffers a = reviveBuffers b) := by
  refine ⟨?_, ?_, ?_⟩
  · intro ns
    show RVal.rbuf (bufferFrom (ns.map .jnum)) = _
    simp only [bufferFrom, List.map_map]
    rfl
  · intro ds
    rfl
  · refine ⟨.jobj [("type", .jstr "Buffer"), ("data", .jarr [])],
      .jobj [("data", .jarr []), ("type", .jstr "Buffer")], ?_, rfl⟩
    intro hcontra
    have hk := congrArg (fun j => match j with
      | JVal.jobj ((k, _) :: _) => k
      | _ => "") hcontra
    simp only at hk
    exact absurd hk (by decide)

end Htpx
